import Mathlib

/-!
Verification of the Pers-Packing-Slips order-processing core.

This file gives a shallow embedding in Lean 4 of the repository's
order-normalization, box-size classification, kit deduplication,
shipping-zone assignment, picklist aggregation and packing-slip
pagination logic, and proves (or refutes) the specification claims
about them.

Conventions used throughout the embedding:
* JavaScript strings are `String`; an `undefined`-able string field is
  `Option String`; the JS truthiness test `!s` for a string is
  "`none` or the empty string".
* JS numbers appearing here are either exact decimal layout constants
  (embedded as `ℚ`) or integers (embedded as `Int`/`Nat`).
* JS `Map`s (insertion-ordered) are association lists.
-/

/-- One entry of a NetSuite select-field array, e.g. `{ value, text }`. -/
structure ItemRef where
  value : String
  text : String
deriving DecidableEq

/-- The fields of one raw NetSuite line record (`NetSuiteItem.values` in
`src/lib/types.ts`) that the verified core reads.  Optional string
fields are `Option String` (JS `undefined` = `none`). -/
structure NetSuiteItem where
  item : List ItemRef
  itemType : Option (List ItemRef)
  quantity : String
  formulatext : Option String
  formulatext_1 : Option String
  custcol_custom_image_url : Option String
  custcol1 : Option String
  custcol1_1 : Option String
  custcol_customization_barcode : Option String
  custitem_item_color : Option String
  custitem_pir_pick_location : Option String
deriving DecidableEq

/-- Model of `s.startsWith p`, computed on the character lists. -/
def strStartsWith (s p : String) : Bool :=
  p.toList.isPrefixOf s.toList

/-- Model of `s.endsWith p`, computed on the character lists. -/
def strEndsWith (s p : String) : Bool :=
  p.toList.isSuffixOf s.toList

/-- Model of `s.trimLeft()`, computed on the character lists. -/
def strTrimLeft (s : String) : String :=
  String.mk (s.toList.dropWhile Char.isWhitespace)

/-- JS `s.trim()`, computed on the character lists. -/
def strTrim (s : String) : String :=
  String.mk (((s.toList.dropWhile Char.isWhitespace).reverse.dropWhile
    Char.isWhitespace).reverse)

/-- Drop the last `n` characters of a string. -/
def strDropRight (s : String) (n : Nat) : String :=
  String.mk (s.toList.take (s.toList.length - n))

/-- Helper for JS `s.split('\n')`. -/
def splitNewlineAux : List Char → List Char → List String
  | [], acc => [String.mk acc.reverse]
  | c :: rest, acc =>
      if c = '\n' then String.mk acc.reverse :: splitNewlineAux rest []
      else splitNewlineAux rest (c :: acc)

/-- JS `s.split('\n')`. -/
def splitNewlines (s : String) : List String :=
  splitNewlineAux s.toList []

/-- Model of `s.toUpper`, computed on the character lists. -/
def strToUpper (s : String) : String :=
  String.mk (s.toList.map Char.toUpper)

/-- Model of `s.toLowerCase()`, computed on the character lists. -/
def strToLower (s : String) : String :=
  String.mk (s.toList.map Char.toLower)

/-- Model of `s.substring(0, n)`, computed on the character lists. -/
def strTake (s : String) (n : Nat) : String :=
  String.mk (s.toList.take n)

/-- JS truthiness of a possibly-undefined string: `undefined` and `""`
are falsy, every other string is truthy. -/
def jsTruthy : Option String → Bool
  | none => false
  | some s => s ≠ ""

/-- JS `a || b` where the result is used as a string with default `b`
(e.g. `item.values.formulatext || ''`). -/
def jsOrStr (a : Option String) (b : String) : String :=
  match a with
  | none => b
  | some s => if s = "" then b else s

/-- JS `a || b` on two possibly-undefined strings. -/
def jsOrOpt (a b : Option String) : Option String :=
  if jsTruthy a then a else b

/-- JS `parseInt(s)` restricted to decimal input: skip leading
whitespace, read an optional sign and a non-empty run of decimal
digits; anything else is `NaN` (`none`).  (The radix-16 `0x` form of
`parseInt` is not exercised by the repository's inputs and is not
modelled.) -/
def jsParseInt (s : String) : Option Int :=
  let digitsVal : List Char → Option Nat := fun cs =>
    let ds := cs.takeWhile Char.isDigit
    if ds.isEmpty then none
    else some (ds.foldl (fun acc c => 10 * acc + (c.toNat - '0'.toNat)) 0)
  match s.toList.dropWhile Char.isWhitespace with
  | '-' :: rest => (digitsVal rest).map (fun n => -(n : Int))
  | '+' :: rest => (digitsVal rest).map (fun n => (n : Int))
  | rest => (digitsVal rest).map (fun n => (n : Int))

/-- JS `parseInt(s) || 1` (used for item quantity): `NaN` and `0` are
falsy and give the default `1`; any other parsed value is kept. -/
def jsParseIntOr1 (s : String) : Int :=
  match jsParseInt s with
  | none => 1
  | some v => if v = 0 then 1 else v

/-- Model of `extractSKUPrefix` (part_003): first 5 characters of the SKU,
uppercased, kept only if they match `/^DPT\d{2}$/`. -/
def extractSKUPrefixCode (sku : String) : Option String :=
  let p := strToUpper (strTake sku 5)
  match p.toList with
  | ['D', 'P', 'T', a, b] => if a.isDigit && b.isDigit then some p else none
  | _ => none

/-- Model of `extractCupSize` (part_003): `DPT10`/`DPT16`/`DPT26` map to
`"10oz"`/`"16oz"`/`"26oz"`; any other prefix gives no size. -/
def extractCupSize (code : Option String) : Option String :=
  match code with
  | none => none
  | some s =>
    match s.toList with
    | ['D', 'P', 'T', a, b] =>
        if a.isDigit && b.isDigit then
          let size := 10 * (a.toNat - '0'.toNat) + (b.toNat - '0'.toNat)
          if size = 10 ∨ size = 16 ∨ size = 26 then some (toString size ++ "oz")
          else none
        else none
    | _ => none

/-- Model of `isUrl` (part_003): the dual-purpose text field counts as a URL iff
it starts with `http://` or `https://`. -/
def isUrl (s : String) : Bool :=
  strStartsWith s "http://" || strStartsWith s "https://"

/-- A normalized order line (`OrderItem` in `src/lib/types.ts`). -/
structure OrderItem where
  sku : String
  skuPrefixCode : Option String
  size : Option String
  quantity : Int
  color : Option String
  imageUrl : Option String
  barcode : Option String
  description : String
  pickLocation : Option String
deriving DecidableEq

/-- Model of `processItem` (part_003): normalize one raw line record. -/
def processItem (ns : NetSuiteItem) : OrderItem :=
  let sku := jsOrStr (ns.item.head?.map ItemRef.text) ""
  let code := extractSKUPrefixCode sku
  let size := extractCupSize code
  let formulatext := jsOrStr ns.formulatext ""
  let isImageUrl := isUrl formulatext
  let imageUrl :=
    if isImageUrl then some formulatext
    else jsOrOpt ns.custcol_custom_image_url (jsOrOpt ns.custcol1 ns.custcol1_1)
  let description := jsOrStr ns.formulatext_1 (if isImageUrl then "" else formulatext)
  let pickLocation :=
    match ns.custitem_pir_pick_location with
    | none => none
    | some s => if strTrim s = "" then none else some (strTrim s)
  { sku := sku
    skuPrefixCode := code
    size := size
    quantity := jsParseIntOr1 ns.quantity
    color := ns.custitem_item_color
    imageUrl := imageUrl
    barcode := ns.custcol_customization_barcode
    description := description
    pickLocation := pickLocation }

/-- Model of `isKit` (part_003): the record's `item.type` select resolves to
`Kit`. -/
def isKit (ns : NetSuiteItem) : Bool :=
  match ns.itemType with
  | some (r :: _) => r.value == "Kit"
  | _ => false

/-- The raw SKU text of a record, `item.values.item[0]?.text || ''`. -/
def skuOf (ns : NetSuiteItem) : String :=
  jsOrStr (ns.item.head?.map ItemRef.text) ""

/-- Model of `getBaseSKU` (part_003): strip a trailing `-PERS` personalization
suffix. -/
def getBaseSKU (sku : String) : String :=
  if strEndsWith sku "-PERS" then strDropRight sku 5 else sku

/-- First pass of `filterDuplicateKitItems`: the base SKUs of all Kit
records in the group. -/
def kitBaseSKUs (l : List NetSuiteItem) : List String :=
  (l.filter isKit).map (fun k => getBaseSKU (skuOf k))

/-- Second-pass keep test of `filterDuplicateKitItems`: Kit records are
always kept; a non-Kit record is kept iff its base SKU matches no Kit's
base SKU. -/
def keepItem (ks : List String) (ns : NetSuiteItem) : Bool :=
  isKit ns || !(ks.contains (getBaseSKU (skuOf ns)))

/-- Model of `filterDuplicateKitItems` (part_003): drop the exploded inventory
components that duplicate a Kit record in the same order group. -/
def filterDuplicateKitItems (l : List NetSuiteItem) : List NetSuiteItem :=
  l.filter (keepItem (kitBaseSKUs l))

/-- Model of `BoxSizeConfig` (src/lib/types.ts): one catalog entry. -/
structure BoxSizeConfig where
  name : String
  maxItems : Nat
  combinations : List (List String)
deriving DecidableEq

/-- Model of `OrderConfig` (src/lib/types.ts): the box-size catalog; the list
order is the JS `Object.entries` iteration order of `packSizes`. -/
structure OrderConfig where
  packSizes : List (String × BoxSizeConfig)
deriving DecidableEq

/-- The multiset of classification prefixes of an order's items: each
unit is counted `quantity`-many times (a non-positive quantity
contributes nothing, like the JS `for` loop); items without a prefix
are ignored. -/
def cupPrefixesOf : List OrderItem → List String
  | [] => []
  | it :: rest =>
      (match it.skuPrefixCode with
       | some p => List.replicate it.quantity.toNat p
       | none => []) ++ cupPrefixesOf rest

/-- Lexicographic comparison of character lists (the order JS
`Array.prototype.sort()` uses on string arrays, compared code unit by
code unit). -/
def charListLe : List Char → List Char → Bool
  | [], _ => true
  | _ :: _, [] => false
  | a :: as, b :: bs =>
      if a < b then true
      else if b < a then false
      else charListLe as bs

/-- Totality of `charListLe`. -/
theorem charListLe_total : ∀ as bs : List Char,
    charListLe as bs = true ∨ charListLe bs as = true
  | [], _ => Or.inl rfl
  | _ :: _, [] => Or.inr rfl
  | a :: as, b :: bs => by
      rcases lt_trichotomy a b with h | h | h
      · left; simp [charListLe, h]
      · subst h
        rcases charListLe_total as bs with h' | h'
        · left; simp [charListLe, lt_irrefl, h']
        · right; simp [charListLe, lt_irrefl, h']
      · right; simp [charListLe, h]

/-- Transitivity of `charListLe`. -/
theorem charListLe_trans : ∀ as bs cs : List Char,
    charListLe as bs = true → charListLe bs cs = true → charListLe as cs = true
  | [], _, _, _, _ => rfl
  | _ :: _, [], _, h, _ => by simp [charListLe] at h
  | _ :: _, _ :: _, [], _, h' => by simp [charListLe] at h'
  | a :: as, b :: bs, c :: cs, h, h' => by
      by_cases hab : a < b
      · by_cases hbc : b < c
        · simp [charListLe, lt_trans hab hbc]
        · by_cases hcb : c < b
          · simp [charListLe, hbc, hcb] at h'
          · have hbc' : b = c := le_antisymm (not_lt.mp hcb) (not_lt.mp hbc)
            subst hbc'
            simp [charListLe, hab]
      · by_cases hba : b < a
        · simp [charListLe, hab, hba] at h
        · have hab' : a = b := le_antisymm (not_lt.mp hba) (not_lt.mp hab)
          subst hab'
          simp only [charListLe, lt_irrefl, if_false] at h
          by_cases hac : a < c
          · simp [charListLe, hac]
          · by_cases hca : c < a
            · simp [charListLe, hac, hca] at h'
            · have hac' : a = c := le_antisymm (not_lt.mp hca) (not_lt.mp hac)
              subst hac'
              simp only [charListLe, lt_irrefl, if_false] at h' ⊢
              exact charListLe_trans as bs cs h h'

/-- Antisymmetry of `charListLe`. -/
theorem charListLe_antisymm : ∀ as bs : List Char,
    charListLe as bs = true → charListLe bs as = true → as = bs
  | [], [], _, _ => rfl
  | [], _ :: _, _, h' => by simp [charListLe] at h'
  | _ :: _, [], h, _ => by simp [charListLe] at h
  | a :: as, b :: bs, h, h' => by
      by_cases hab : a < b
      · simp [charListLe, hab, asymm hab] at h'
      · by_cases hba : b < a
        · simp [charListLe, hab, hba] at h
        · have hab' : a = b := le_antisymm (not_lt.mp hba) (not_lt.mp hab)
          subst hab'
          simp only [charListLe, lt_irrefl, if_false] at h h'
          rw [charListLe_antisymm as bs h h']

/-- The JS string order as a (decidable, total, transitive,
antisymmetric) relation on `String`. -/
def strLe (a b : String) : Prop :=
  charListLe a.toList b.toList = true

instance : DecidableRel strLe := fun a b => by
  unfold strLe
  infer_instance

instance : IsTotal String strLe :=
  ⟨fun a b => charListLe_total a.toList b.toList⟩

instance : IsTrans String strLe :=
  ⟨fun a b c => charListLe_trans a.toList b.toList c.toList⟩

instance : IsAntisymm String strLe :=
  ⟨fun a b h h' => String.toList_inj.mp (charListLe_antisymm a.toList b.toList h h')⟩

/-- JS `Array.prototype.sort()` on string arrays: sort
lexicographically. -/
def sortStrings (l : List String) : List String :=
  l.insertionSort strLe

/-- Model of `matchBoxSize` (part_003): classify an order's cup multiset against
the box-size catalog. -/
def matchBoxSize (items : List OrderItem) (cfg : OrderConfig) : Option String :=
  if (cupPrefixesOf items).length = 0 then none
  else if (cupPrefixesOf items).length = 1 then some "singles"
  else
    (cfg.packSizes.find? (fun kc =>
        kc.2.combinations.any (fun comb =>
          sortStrings comb == sortStrings (cupPrefixesOf items)))).map Prod.fst

/-- The classifier as the specification words it: empty multiset →
`none`; exactly one element → `"singles"`; otherwise the key of the
first catalog entry (in catalog iteration order) having a combination
that is multiset-equal to the order's multiset, else `none`. -/
def classifySpec (items : List OrderItem) (cfg : OrderConfig) : Option String :=
  if (cupPrefixesOf items).length = 0 then none
  else if (cupPrefixesOf items).length = 1 then some "singles"
  else
    (cfg.packSizes.find? (fun kc =>
        kc.2.combinations.any (fun comb =>
          decide ((comb : Multiset String) = (cupPrefixesOf items : Multiset String))))).map
      Prod.fst

/-- A processed order (`ProcessedOrder` in `src/lib/types.ts`),
restricted to the fields the verified claims read. -/
structure ProcessedOrder where
  tranid : String
  orderNumber : String
  boxSize : Option String
  items : List OrderItem
deriving DecidableEq

/-- The small-order test of `generatePackingSlipsPDF` in
`src/lib/types.ts`: Singles and 2/4 Packs (`'4pack'`) are laid out two
per page. -/
def isSmallOrderV1 (o : ProcessedOrder) : Bool :=
  o.boxSize == some "singles" || o.boxSize == some "4pack"

/-- The small-order test of the `generatePackingSlipsPDF` variant in
part_002: only Singles are laid out two per page. -/
def isSmallOrderV2 (o : ProcessedOrder) : Bool :=
  o.boxSize == some "singles"

/-- One physical page of the packing-slip document: either two small
orders stacked top/bottom with the cut-guide line between them
(`generateTwoSinglesPage`), or one order on a dedicated page
(`generatePackingSlipPage`). -/
inductive SlipPage where
  | twoUp (top bottom : ProcessedOrder)
  | single (o : ProcessedOrder)
deriving DecidableEq

/-- The `for (let i = 0; i < singlesOrders.length; i += 2)` loop of
`generatePackingSlipsPDF`: consume small orders two at a time in input
order; `order1` goes to the top half, `order2` (when present) to the
bottom half; an odd leftover order gets a full page alone. -/
def pairUpSingles : List ProcessedOrder → List SlipPage
  | [] => []
  | [a] => [SlipPage.single a]
  | a :: b :: rest => SlipPage.twoUp a b :: pairUpSingles rest

/-- The page plan of `generatePackingSlipsPDF`: partition the input
into small orders and others (preserving input order), lay the small
orders out two per page, then give every other order one dedicated
page. -/
def planPackingSlipPages (isSmall : ProcessedOrder → Bool)
    (orders : List ProcessedOrder) : List SlipPage :=
  pairUpSingles (orders.filter isSmall)
    ++ (orders.filter (fun o => !(isSmall o))).map SlipPage.single

/-- The orders rendered on one page, top first. -/
def pageOrders : SlipPage → List ProcessedOrder
  | SlipPage.twoUp a b => [a, b]
  | SlipPage.single a => [a]

/-- The orders rendered by a page list, in render order. -/
def pagesOrders : List SlipPage → List ProcessedOrder
  | [] => []
  | p :: rest => pageOrders p ++ pagesOrders rest

/-- Vertical advance of the items-table column headers in
`drawItemsTable`: `currentY += 0.12` before and after the rule. -/
def tableHeaderAdvance : ℚ := 0.12 + 0.12

/-- The `maxY` returned by `drawHeader` (src/lib/types.ts) for an order
without custom artwork whose ship-to address has `nAddressLines`
lines: the left column advances `0.1` (SHIP TO baseline), `0.15`
(below SHIP TO) and `0.15` per address line; the right column advances
`0.3` (title) plus `0.2` for each of the 5 detail rows; the returned
height is the column maximum plus `0.1` for the separator rule. -/
def drawHeaderHeight (startY : ℚ) (nAddressLines : Nat) : ℚ :=
  max (max startY (startY + 0.1 + 0.15 + 0.15 * (nAddressLines : ℚ)))
      (startY + 0.3 + 0.2 * 5) + 0.1

/-- The row loop of `drawItemsTable` (src/lib/types.ts lines 690-717):
before each row, if `currentY + rowHeight > maxY` the engine starts a
new page at `currentY = 0.5`, re-renders the full order header
(`drawHeader`) and the table column headers, and only then draws the
row; each drawn row advances `rowHeight + 0.02`.  The result lists the
number of rows placed on each page (current page first). -/
def drawItemsTableRows (nAddr : Nat) (rowHeight maxY : ℚ) :
    Nat → ℚ → Nat → List Nat
  | 0, _, cur => [cur]
  | n + 1, y, cur =>
      if maxY < y + rowHeight then
        cur :: drawItemsTableRows nAddr rowHeight maxY n
          (drawHeaderHeight 0.5 nAddr + 0.2 + tableHeaderAdvance + rowHeight + 0.02) 1
      else
        drawItemsTableRows nAddr rowHeight maxY n (y + rowHeight + 0.02) (cur + 1)

/-- Model of `generatePackingSlipPage` feeding `drawItemsTable` for a full-width
page: the table starts at `headerHeight + 0.2`, draws its column
headers, and may grow past `maxY = pageHeight - margin - 0.5 = 10`
inches; `rowHeight = 0.5` (full-width layout). -/
def fullPagePlan (nAddr numItems : Nat) : List Nat :=
  drawItemsTableRows nAddr 0.5 (11 - 0.5 - 0.5) numItems
    (drawHeaderHeight 0.5 nAddr + 0.2 + tableHeaderAdvance) 0

/-- The cursor position of `drawItemsTable` on a full-width page with a
3-line address after `k` rows have been drawn on the current page:
rows start at `1.9 + 0.2 + 0.24 = 2.34` and each row advances
`0.5 + 0.02`. -/
def stdRowY (k : Nat) : ℚ :=
  2.34 + 0.52 * k

/-- One per-order line of a picklist row's quantity breakdown. -/
structure PicklistOrderEntry where
  orderNumber : String
  quantity : Int
deriving DecidableEq

/-- One aggregate picklist record (`PicklistItem` in
`generatePicklistPDF`). -/
structure PicklistItem where
  sku : String
  description : String
  color : Option String
  pickLocation : String
  totalQuantity : Int
  orders : List PicklistOrderEntry
deriving DecidableEq

/-- The composite map key of `generatePicklistPDF`:
`` `${location}|${item.sku}` `` with `location = item.pickLocation || '-'``. -/
def picklistKey (it : OrderItem) : String :=
  jsOrStr it.pickLocation "-" ++ "|" ++ it.sku

/-- The per-order breakdown update: find the entry for this order
number and add the quantity, else push a new entry. -/
def addOrderQty : List PicklistOrderEntry → String → Int → List PicklistOrderEntry
  | [], onum, q => [⟨onum, q⟩]
  | e :: rest, onum, q =>
      if e.orderNumber == onum then { e with quantity := e.quantity + q } :: rest
      else e :: addOrderQty rest onum q

/-- Apply one item occurrence to an aggregate record: add its quantity
to the total and to the per-order breakdown. -/
def applyItem (onum : String) (it : OrderItem) (e : PicklistItem) : PicklistItem :=
  { e with totalQuantity := e.totalQuantity + it.quantity,
           orders := addOrderQty e.orders onum it.quantity }

/-- The fresh record created by `itemsByLocation.set(key, {...})` the
first time a key is seen. -/
def freshPicklistItem (it : OrderItem) : PicklistItem :=
  { sku := it.sku, description := it.description, color := it.color,
    pickLocation := jsOrStr it.pickLocation "-", totalQuantity := 0, orders := [] }

/-- Update the (first, and under the map invariant only) record with
the given key. -/
def updateFirst :
    List (String × PicklistItem) → String → (PicklistItem → PicklistItem) →
      List (String × PicklistItem)
  | [], _, _ => []
  | kv :: rest, key, f =>
      if kv.1 == key then (kv.1, f kv.2) :: rest
      else kv :: updateFirst rest key f

/-- One iteration of the aggregation loop of `generatePicklistPDF`
(and of `generateCombinedPDF`): create-if-absent, then accumulate. -/
def picklistStep (acc : List (String × PicklistItem)) (p : String × OrderItem) :
    List (String × PicklistItem) :=
  if (acc.find? (fun kv => kv.1 == picklistKey p.2)).isSome then
    updateFirst acc (picklistKey p.2) (applyItem p.1 p.2)
  else
    acc ++ [(picklistKey p.2, applyItem p.1 p.2 (freshPicklistItem p.2))]

/-- The nested `for (order of orders) for (item of order.items)` loops
flattened to the processed `(orderNumber, item)` sequence. -/
def orderItemPairs (orders : List ProcessedOrder) : List (String × OrderItem) :=
  orders.foldr (fun o acc => o.items.map (fun it => (o.orderNumber, it)) ++ acc) []

/-- The `itemsByLocation` map of `generatePicklistPDF` as an
insertion-ordered association list. -/
def picklistAggregate (orders : List ProcessedOrder) : List (String × PicklistItem) :=
  (orderItemPairs orders).foldl picklistStep []

/-- Lookup in the aggregation map (first matching key). -/
def lookupKey (acc : List (String × PicklistItem)) (k : String) : Option PicklistItem :=
  (acc.find? (fun kv => kv.1 == k)).map Prod.snd

/-- The total quantity recorded for a key (0 when absent). -/
def accTotal (acc : List (String × PicklistItem)) (k : String) : Int :=
  match lookupKey acc k with
  | some v => v.totalQuantity
  | none => 0

/-- Sum of the quantities of the processed item occurrences with the
given composite key. -/
def sumQtyAt : List (String × OrderItem) → String → Int
  | [], _ => 0
  | p :: rest, k => (if picklistKey p.2 = k then p.2.quantity else 0) + sumQtyAt rest k

/-- The keys of the aggregation map, in insertion order. -/
def keysOf (acc : List (String × PicklistItem)) : List String :=
  acc.map Prod.fst

/-- Sum of a per-order breakdown. -/
def ordersSum : List PicklistOrderEntry → Int
  | [] => 0
  | e :: rest => e.quantity + ordersSum rest

/-- Word characters (`\w`) of the JS regexes used on address lines. -/
def isWordChar (c : Char) : Bool :=
  c.isAlphanum || c = '_'

/-- The next `n` characters exist and are decimal digits. -/
def digitsAt (cs : List Char) (n : Nat) : Bool :=
  (cs.take n).length == n && (cs.take n).all Char.isDigit

/-- A `\b` word boundary holds at this suffix (end of input or a
non-word character). -/
def boundaryOk (cs : List Char) : Bool :=
  match cs with
  | [] => true
  | c :: _ => !isWordChar c

/-- A `\b` word boundary holds before a word character given the
previous character (if any). -/
def boundaryBefore (prev : Option Char) : Bool :=
  match prev with
  | none => true
  | some p => !isWordChar p

/-- The JS regex `/\b(\d{5})(?:[-\s]?\d{4})?\b/` matches at this
position: five digits, then either a `+4` part (with or without a
separator) followed by a boundary, or a boundary directly. -/
def zipMatchHere (cs : List Char) : Bool :=
  digitsAt cs 5 &&
    ((match cs.drop 5 with
      | c :: rest2 =>
          (c == '-' || c.isWhitespace) && digitsAt rest2 4 && boundaryOk (rest2.drop 4)
      | [] => false)
     || (digitsAt (cs.drop 5) 4 && boundaryOk ((cs.drop 5).drop 4))
     || boundaryOk (cs.drop 5))

/-- Left-to-right scan for the first zip-code match on a line; the
captured group is the five digits. -/
def zipScan : List Char → Option Char → Option String
  | [], _ => none
  | c :: rest, prev =>
      if boundaryBefore prev && zipMatchHere (c :: rest) then
        some (String.mk ((c :: rest).take 5))
      else zipScan rest (some c)

/-- Model of `line.match(/\b(\d{5})(?:[-\s]?\d{4})?\b/)?.[1]`. -/
def zipFromLine (line : String) : Option String :=
  zipScan line.toList none

/-- The JS regex `/\b([A-Z]{2})\s+\d{5}/` matches at this position. -/
def stateMatchHere (cs : List Char) : Bool :=
  match cs with
  | a :: b :: rest =>
      a.isUpper && b.isUpper &&
        (let ws := rest.takeWhile Char.isWhitespace
         decide (1 ≤ ws.length) && digitsAt (rest.drop ws.length) 5)
  | _ => false

/-- Left-to-right scan for the first state-abbreviation match on a
line; the captured group is the two letters. -/
def stateScan : List Char → Option Char → Option String
  | [], _ => none
  | c :: rest, prev =>
      if boundaryBefore prev && stateMatchHere (c :: rest) then
        some (String.mk ((c :: rest).take 2))
      else stateScan rest (some c)

/-- Model of `line.match(/\b([A-Z]{2})\s+\d{5}/)?.[1]`. -/
def stateFromLine (line : String) : Option String :=
  stateScan line.toList none

/-- JS `s.includes(pat)`. -/
def containsStr (s pat : String) : Bool :=
  decide (pat.toList <:+: s.toList)

/-- The trimmed, non-empty lines of a shipping address. -/
def addressLines (address : String) : List String :=
  ((splitNewlines address).map strTrim).filter (fun l => l != "")

/-- The line loop of `parseShippingAddress` (src/lib/shippingZones.ts):
walk the lines from last to first, skip any line containing
"united states" (lowercased), and stop at the first remaining line
with a zip-code match, also extracting the state abbreviation from
that line.  (The extracted city is not consumed by any verified path
and is not modelled.) -/
def findZipLine : List String → Option (String × Option String)
  | [] => none
  | line :: rest =>
      if containsStr (strToLower line) "united states" then findZipLine rest
      else
        match zipFromLine line with
        | some z => some (z, stateFromLine line)
        | none => findZipLine rest

/-- Model of `parseShippingAddress` (src/lib/shippingZones.ts), restricted to
the `(zipCode, state)` part of its result: `none` when no zip code can
be parsed from the address. -/
def parseShippingAddress (address : String) : Option (String × Option String) :=
  if address = "" then none
  else findZipLine (addressLines address).reverse

/-- The static state-centroid table of `getCoordinatesFromZip`. -/
def stateCenters : List (String × ℚ × ℚ) :=
  [("NC", 35.5, -80.0), ("SC", 33.8, -80.9), ("GA", 32.6, -83.4),
   ("TN", 35.7, -86.8), ("VA", 37.5, -78.2), ("FL", 27.8, -81.8),
   ("AL", 32.8, -86.8), ("MS", 32.7, -89.7), ("KY", 37.7, -85.3),
   ("WV", 38.3, -80.9), ("OH", 40.4, -82.8), ("PA", 40.6, -77.2),
   ("NY", 42.2, -74.8), ("MA", 42.2, -71.5), ("CT", 41.6, -72.7),
   ("NJ", 40.2, -74.5), ("MD", 39.0, -76.5), ("DE", 39.2, -75.5),
   ("TX", 31.0, -99.9), ("CA", 36.1, -119.4), ("WA", 47.0, -120.7),
   ("OR", 44.0, -120.5), ("AZ", 34.0, -111.5), ("NV", 39.3, -116.6),
   ("UT", 39.3, -111.6), ("CO", 39.0, -105.5), ("NM", 34.5, -106.2),
   ("OK", 35.5, -97.5), ("AR", 34.7, -92.3), ("LA", 30.4, -91.2),
   ("MO", 38.5, -92.2), ("IA", 41.9, -93.6), ("MN", 46.7, -94.7),
   ("WI", 44.3, -89.6), ("IL", 40.3, -89.1), ("IN", 39.8, -86.1),
   ("MI", 43.3, -84.5), ("ME", 44.3, -69.8), ("NH", 43.4, -71.6),
   ("VT", 44.2, -72.6), ("RI", 41.8, -71.4), ("HI", 21.3, -157.8),
   ("AK", 61.2, -149.9)]

/-- Lookup in `stateCenters`, JS `stateCenters[state]`. -/
def lookupStateCenter (st : String) : Option (ℚ × ℚ) :=
  (stateCenters.find? (fun e => e.1 == st)).map Prod.snd

/-- Asheville, NC origin latitude. -/
def ASHEVILLE_LAT : ℚ := 35.5951

/-- Asheville, NC origin longitude. -/
def ASHEVILLE_LON : ℚ := -82.5515

/-- The zip-prefix-range heuristics of `getCoordinatesFromZip`:
`parseInt(zipCode.substring(0, 3))`, five regional ranges, otherwise
the Asheville origin itself. -/
def zipPrefixCoords (zipCode : String) : ℚ × ℚ :=
  match jsParseInt (strTake zipCode 3) with
  | none => (ASHEVILLE_LAT, ASHEVILLE_LON)
  | some p =>
      if 280 ≤ p ∧ p ≤ 289 then (35.5, -80.0)
      else if 290 ≤ p ∧ p ≤ 299 then (33.8, -80.9)
      else if 300 ≤ p ∧ p ≤ 319 then (33.7, -84.4)
      else if 370 ≤ p ∧ p ≤ 385 then (35.7, -86.8)
      else if 220 ≤ p ∧ p ≤ 246 then (37.5, -78.2)
      else (ASHEVILLE_LAT, ASHEVILLE_LON)

/-- Model of `getCoordinatesFromZip` (src/lib/shippingZones.ts): prefer the
state-centroid table, fall back to the zip-prefix heuristics, never
fail. -/
def getCoordinatesFromZip (zipCode : String) (state : Option String) : ℚ × ℚ :=
  match state with
  | some st =>
      if st ≠ "" then
        match lookupStateCenter (strToUpper st) with
        | some c => c
        | none => zipPrefixCoords zipCode
      else zipPrefixCoords zipCode
  | none => zipPrefixCoords zipCode

/-- Model of `calculateDistanceFromAsheville` (src/lib/shippingZones.ts):
`none` when the address yields no zip code; otherwise the great-circle
distance to the resolved coordinates.  The haversine computation
itself (`calculateDistance`, lines 76-95) uses transcendental
floating-point functions (`sin`, `cos`, `atan2`, `sqrt`); it is
abstracted as the parameter `dist`, giving the computed distance for
the destination coordinates, and every theorem below holds for every
such function. -/
def calculateDistanceFromAsheville (dist : ℚ × ℚ → ℚ) (address : String) : Option ℚ :=
  match parseShippingAddress address with
  | none => none
  | some (zip, st) => some (dist (getCoordinatesFromZip zip st))

/-- One shipping-zone band; `maxDistance = none` models the JS
`Infinity` of the last band. -/
structure ShippingZone where
  id : String
  zoneName : String
  maxDistance : Option ℚ
  priority : Nat
deriving DecidableEq

/-- Model of `SHIPPING_ZONES` (src/lib/shippingZones.ts lines 14-19). -/
def SHIPPING_ZONES : List ShippingZone :=
  [⟨"local", "Local (0-50 mi)", some 50, 4⟩,
   ⟨"regional", "Regional (50-499 mi)", some 499, 3⟩,
   ⟨"national", "National (500-1000 mi)", some 1000, 2⟩,
   ⟨"distant", "Distant (1000+ mi)", none, 1⟩]

/-- Model of `distance <= zone.maxDistance`, where every number is `<=`
`Infinity`. -/
def leMax (d : ℚ) : Option ℚ → Bool
  | none => true
  | some x => decide (d ≤ x)

/-- The record returned by `assignShippingZone`. -/
structure ZoneAssignment where
  zone : String
  distance : Option ℚ
  zoneName : String
deriving DecidableEq

/-- Model of `assignShippingZone` (src/lib/shippingZones.ts lines 211-245):
no computable distance → the `'national'` default with a `null`
distance; otherwise scan `SHIPPING_ZONES` in order for the first band
whose `maxDistance` the distance does not exceed, with the
"should never reach here" fallback to `'distant'` after the loop. -/
def assignShippingZone (dist : ℚ × ℚ → ℚ) (address : String) : ZoneAssignment :=
  match calculateDistanceFromAsheville dist address with
  | none =>
      { zone := "national", distance := none,
        zoneName := jsOrStr
          ((SHIPPING_ZONES.find? (fun z => z.id == "national")).map ShippingZone.zoneName)
          "National (500-1000 mi)" }
  | some d =>
      match SHIPPING_ZONES.find? (fun z => leMax d z.maxDistance) with
      | some z => { zone := z.id, distance := some d, zoneName := z.zoneName }
      | none => { zone := "distant", distance := some d, zoneName := "Distant (1000+ mi)" }

/-- Whether a generator result is `Except.ok`. -/
def isOkE {ε α : Type} : Except ε α → Bool
  | Except.ok _ => true
  | Except.error _ => false

/-- Model of the `generatePackingSlipsPDF` entry guard plus page plan: an empty
selection fails fast with `'No orders provided'` and produces no
document. -/
def generatePackingSlipsPDFRun (orders : List ProcessedOrder) :
    Except String (List SlipPage) :=
  if orders.isEmpty then Except.error "No orders provided"
  else Except.ok (planPackingSlipPages isSmallOrderV1 orders)

/-- Model of the `generatePicklistPDF` entry guard plus aggregation. -/
def generatePicklistPDFRun (orders : List ProcessedOrder) :
    Except String (List (String × PicklistItem)) :=
  if orders.isEmpty then Except.error "No orders provided"
  else Except.ok (picklistAggregate orders)

/-- Model of the `generateCombinedPDF` entry guard plus both halves (picklist pages
first, then the packing-slip pages). -/
def generateCombinedPDFRun (orders : List ProcessedOrder) :
    Except String (List (String × PicklistItem) × List SlipPage) :=
  if orders.isEmpty then Except.error "No orders provided"
  else Except.ok (picklistAggregate orders, planPackingSlipPages isSmallOrderV1 orders)

/-- A raw record with every optional field absent, used to build the
concrete evaluation inputs below. -/
def baseNS : NetSuiteItem :=
  { item := [⟨"1", "SKU1"⟩], itemType := none, quantity := "1",
    formulatext := none, formulatext_1 := none,
    custcol_custom_image_url := none, custcol1 := none, custcol1_1 := none,
    custcol_customization_barcode := none, custitem_item_color := none,
    custitem_pir_pick_location := none }

/-- A normalized item with every optional field absent. -/
def baseItem : OrderItem :=
  { sku := "SKU1", skuPrefixCode := none, size := none, quantity := 1,
    color := none, imageUrl := none, barcode := none, description := "",
    pickLocation := none }

/-- Concrete classifier input: one `DPT10` cup. -/
def w1ItemA : OrderItem :=
  { baseItem with sku := "DPT10-CUP", skuPrefixCode := some "DPT10" }

/-- Concrete classifier input: one `DPT16` cup. -/
def w1ItemB : OrderItem :=
  { baseItem with sku := "DPT16-CUP", skuPrefixCode := some "DPT16" }

/-- Concrete one-entry catalog whose `4pack` entry accepts the
`DPT10 + DPT16` combination. -/
def w1Cfg : OrderConfig :=
  ⟨[("4pack", ⟨"2/4 Pack", 4, [["DPT16", "DPT10"]]⟩)]⟩

/-- A singles-classified order for the pagination examples. -/
def slipOrder (t : String) : ProcessedOrder :=
  ⟨t, t, some "singles", []⟩

/-- C5 counterexample input: the dual-purpose field is a URL but the
dedicated description field is also populated. -/
def c5CxItem : NetSuiteItem :=
  { baseNS with formulatext := some "https://img.example/x.png",
                formulatext_1 := some "Blue mug, glossy" }

/-- C5 witness input: a free-text dual-purpose field, no dedicated
description. -/
def c5WItem : NetSuiteItem :=
  { baseNS with formulatext := some "Blue mug, glossy" }

/-- C7 counterexample input: a negative quantity text. -/
def c7CxItem : NetSuiteItem :=
  { baseNS with quantity := "-3" }

/-- C6 concrete example: order O1 with 2 × CUP-PERS at bin A1. -/
def c6ExO1 : ProcessedOrder :=
  ⟨"T1", "O1", none,
   [{ baseItem with sku := "CUP-PERS", pickLocation := some "A1", quantity := 2 }]⟩

/-- C6 concrete example: order O2 with 3 × CUP-PERS at bin A1. -/
def c6ExO2 : ProcessedOrder :=
  ⟨"T2", "O2", none,
   [{ baseItem with sku := "CUP-PERS", pickLocation := some "A1", quantity := 3 }]⟩

/-- C6 counterexample: location `A|B`, SKU `C`. -/
def c6CxO1 : ProcessedOrder :=
  ⟨"T1", "O1", none,
   [{ baseItem with sku := "C", pickLocation := some "A|B" }]⟩

/-- C6 counterexample: location `A`, SKU `B|C` — a different
(location, SKU) pair with the same composite key `A|B|C`. -/
def c6CxO2 : ProcessedOrder :=
  ⟨"T2", "O2", none,
   [{ baseItem with sku := "B|C", pickLocation := some "A" }]⟩

/-- Concrete shipping address that parses to zip 28801, state NC. -/
def waddr : String :=
  "Jane Roe\n1 Main St\nAsheville NC 28801\nUnited States"

/-- Two string lists have equal JS-sorts iff they are permutations of
each other (i.e. equal as multisets). -/
theorem sortStrings_eq_iff_perm (l₁ l₂ : List String) :
    sortStrings l₁ = sortStrings l₂ ↔ l₁.Perm l₂ := by
  constructor
  · intro h
    have h₁ : l₁.Perm (sortStrings l₁) :=
      (List.perm_insertionSort strLe l₁).symm
    have h₂ := List.perm_insertionSort strLe l₂
    rw [h] at h₁
    exact h₁.trans h₂
  · intro h
    have hs₁ := List.sorted_insertionSort strLe l₁
    have hs₂ := List.sorted_insertionSort strLe l₂
    have hp : (sortStrings l₁).Perm (sortStrings l₂) :=
      (List.perm_insertionSort _ l₁).trans (h.trans (List.perm_insertionSort _ l₂).symm)
    exact List.eq_of_perm_of_sorted hp hs₁ hs₂

/-- Permuting the input items permutes the expanded prefix multiset. -/
theorem cupPrefixesOf_perm {l₁ l₂ : List OrderItem} (h : l₁.Perm l₂) :
    (cupPrefixesOf l₁).Perm (cupPrefixesOf l₂) := by
  induction h with
  | nil => exact List.Perm.refl _
  | cons x _ ih =>
      simpa [cupPrefixesOf] using ih.append_left _
  | swap x y l =>
      simp only [cupPrefixesOf, ← List.append_assoc]
      exact List.perm_append_comm.append_right _
  | trans _ _ ih₁ ih₂ => exact ih₁.trans ih₂

/-- The code's sorted-array comparison agrees with the spec's multiset
equality, entrywise. -/
theorem matchBoxSize_pred_eq (m : List String) :
    (fun comb : List String => sortStrings comb == sortStrings m)
      = (fun comb : List String =>
          decide ((comb : Multiset String) = (m : Multiset String))) := by
  funext comb
  rw [Bool.eq_iff_iff]
  simp only [beq_iff_eq, decide_eq_true_eq]
  rw [sortStrings_eq_iff_perm, Multiset.coe_eq_coe]

/-- C1. `matchBoxSize` returns `null` on an empty prefix multiset,
`"singles"` on a one-element multiset, and otherwise the key of the
first catalog entry (in iteration order) having a combination that is
multiset-equal to the order's multiset, else `null`; and the result is
invariant under any permutation of the input items. -/
theorem boxSizeClassifier_correct (items : List OrderItem) (cfg : OrderConfig) :
    matchBoxSize items cfg = classifySpec items cfg
    ∧ ∀ items' : List OrderItem, items.Perm items' →
        matchBoxSize items cfg = matchBoxSize items' cfg := by
  constructor
  · unfold matchBoxSize classifySpec
    simp only [matchBoxSize_pred_eq (cupPrefixesOf items)]
  · intro items' hperm
    have hp := cupPrefixesOf_perm hperm
    unfold matchBoxSize
    rw [hp.length_eq, (sortStrings_eq_iff_perm _ _).mpr hp]

/-- Witness for C1 at a concrete order (one DPT10 cup and one DPT16
cup) and catalog: the classifier matches the `4pack` entry, and is
unchanged by swapping the two items. -/
theorem boxSizeClassifier_correct_witness :
    matchBoxSize [w1ItemA, w1ItemB] w1Cfg = classifySpec [w1ItemA, w1ItemB] w1Cfg
    ∧ matchBoxSize [w1ItemA, w1ItemB] w1Cfg = matchBoxSize [w1ItemB, w1ItemA] w1Cfg
    ∧ matchBoxSize [w1ItemA, w1ItemB] w1Cfg = some "4pack" :=
  ⟨(boxSizeClassifier_correct [w1ItemA, w1ItemB] w1Cfg).1,
   (boxSizeClassifier_correct [w1ItemA, w1ItemB] w1Cfg).2 [w1ItemB, w1ItemA] (by decide),
   by decide⟩

/-- C2. `filterDuplicateKitItems` is idempotent: filtering an
already-filtered order group is a no-op. -/
theorem filterDuplicateKitItems_idempotent (l : List NetSuiteItem) :
    filterDuplicateKitItems (filterDuplicateKitItems l) = filterDuplicateKitItems l := by
  have hkit : (filterDuplicateKitItems l).filter isKit = l.filter isKit := by
    unfold filterDuplicateKitItems
    rw [List.filter_filter]
    apply List.filter_congr
    intro x _
    cases hx : isKit x <;> simp [keepItem, hx]
  have hks : kitBaseSKUs (filterDuplicateKitItems l) = kitBaseSKUs l := by
    unfold kitBaseSKUs
    rw [hkit]
  conv_lhs => rw [filterDuplicateKitItems, hks]
  rw [filterDuplicateKitItems, List.filter_filter]
  apply List.filter_congr
  intro x _
  rw [Bool.and_self]

/-- The orders rendered by concatenated page lists. -/
theorem pagesOrders_append (a b : List SlipPage) :
    pagesOrders (a ++ b) = pagesOrders a ++ pagesOrders b := by
  induction a with
  | nil => rfl
  | cons p rest ih => simp [pagesOrders, ih]

/-- Two-at-a-time pairing consumes exactly the input orders, in input
order. -/
theorem pairUpSingles_orders : ∀ l : List ProcessedOrder, pagesOrders (pairUpSingles l) = l
  | [] => rfl
  | [_] => rfl
  | a :: b :: rest => by
      simp [pairUpSingles, pagesOrders, pageOrders, pairUpSingles_orders rest]

/-- With an even number of orders already paired, one more order is
rendered alone on a trailing full page. -/
theorem pairUpSingles_append_single :
    ∀ (l : List ProcessedOrder) (a : ProcessedOrder), l.length % 2 = 0 →
      pairUpSingles (l ++ [a]) = pairUpSingles l ++ [SlipPage.single a]
  | [], _, _ => rfl
  | [_], _, h => by simp at h
  | x :: y :: rest, a, h => by
      have h' : rest.length % 2 = 0 := by
        simp only [List.length_cons] at h
        omega
      simp only [List.cons_append, pairUpSingles, List.append_eq]
      rw [pairUpSingles_append_single rest a h']

/-- C3. Small orders are consumed two at a time in input order (first
of each pair on top, second in the bottom half), an odd leftover is
rendered alone, every other order gets one dedicated page, and three
singles orders [A, B, C] come out as page 1 = A+B, page 2 = C — in
both generator variants (`src/lib/types.ts`, which also treats
`'4pack'` as small, and part_002, which pairs only `'singles'`). -/
theorem packingSlips_two_up_pagination (A B C : ProcessedOrder)
    (hA : A.boxSize = some "singles") (hB : B.boxSize = some "singles")
    (hC : C.boxSize = some "singles") :
    planPackingSlipPages isSmallOrderV1 [A, B, C] = [SlipPage.twoUp A B, SlipPage.single C]
    ∧ planPackingSlipPages isSmallOrderV2 [A, B, C] = [SlipPage.twoUp A B, SlipPage.single C]
    ∧ (∀ l : List ProcessedOrder, pagesOrders (pairUpSingles l) = l)
    ∧ (∀ (l : List ProcessedOrder) (a : ProcessedOrder), l.length % 2 = 0 →
        pairUpSingles (l ++ [a]) = pairUpSingles l ++ [SlipPage.single a])
    ∧ (∀ (isSmall : ProcessedOrder → Bool) (orders : List ProcessedOrder),
        (∀ o ∈ orders, isSmall o = false) →
        planPackingSlipPages isSmall orders = orders.map SlipPage.single) := by
  refine ⟨?_, ?_, pairUpSingles_orders, pairUpSingles_append_single, ?_⟩
  · simp [planPackingSlipPages, isSmallOrderV1, hA, hB, hC, pairUpSingles]
  · simp [planPackingSlipPages, isSmallOrderV2, hA, hB, hC, pairUpSingles]
  · intro isSmall orders h
    have h1 : orders.filter isSmall = [] :=
      List.filter_eq_nil_iff.mpr (fun a ha => by simp [h a ha])
    have h2 : orders.filter (fun o => !(isSmall o)) = orders :=
      List.filter_eq_self.mpr (fun a ha => by simp [h a ha])
    unfold planPackingSlipPages
    rw [h1, h2]
    rfl

/-- Witness for C3 at three concrete singles orders. -/
theorem packingSlips_two_up_pagination_witness :
    planPackingSlipPages isSmallOrderV1 [slipOrder "A", slipOrder "B", slipOrder "C"]
      = [SlipPage.twoUp (slipOrder "A") (slipOrder "B"), SlipPage.single (slipOrder "C")]
    ∧ planPackingSlipPages isSmallOrderV2 [slipOrder "A", slipOrder "B", slipOrder "C"]
      = [SlipPage.twoUp (slipOrder "A") (slipOrder "B"), SlipPage.single (slipOrder "C")] :=
  ⟨(packingSlips_two_up_pagination _ _ _ rfl rfl rfl).1,
   (packingSlips_two_up_pagination _ _ _ rfl rfl rfl).2.1⟩

/-- While `n + k ≤ 14`, the remaining `n` rows all fit on the current
page: no page break happens. -/
theorem rows_no_break : ∀ (n k cur : Nat), n + k ≤ 14 →
    drawItemsTableRows 3 0.5 (11 - 0.5 - 0.5) n (stdRowY k) cur = [cur + n]
  | 0, _, cur, _ => by simp [drawItemsTableRows]
  | n + 1, k, cur, h => by
      have hk : k ≤ 13 := by omega
      have hcond : ¬((11 - 0.5 - 0.5 : ℚ) < stdRowY k + 0.5) := by
        unfold stdRowY
        have hk' : (k : ℚ) ≤ 13 := by exact_mod_cast hk
        nlinarith
      have hy : stdRowY k + 0.5 + 0.02 = stdRowY (k + 1) := by
        unfold stdRowY
        push_cast
        ring
      simp only [drawItemsTableRows]
      rw [if_neg hcond, hy, rows_no_break n (k + 1) (cur + 1) (by omega)]
      congr 1
      omega

/-- A 15th row on a full page does not fit: the engine breaks the
page, re-renders the order header and the table column headers, and
draws the row at the fresh cursor position. -/
theorem rows_break (n cur : Nat) :
    drawItemsTableRows 3 0.5 (11 - 0.5 - 0.5) (n + 1) (stdRowY 14) cur
      = cur :: drawItemsTableRows 3 0.5 (11 - 0.5 - 0.5) n (stdRowY 1) 1 := by
  have hcond : (11 - 0.5 - 0.5 : ℚ) < stdRowY 14 + 0.5 := by
    unfold stdRowY
    norm_num
  have hy : drawHeaderHeight 0.5 3 + 0.2 + tableHeaderAdvance + 0.5 + 0.02 = stdRowY 1 := by
    unfold stdRowY drawHeaderHeight tableHeaderAdvance
    norm_num [max_def]
  simp only [drawItemsTableRows]
  rw [if_pos hcond, hy]

/-- Fitting rows advance the cursor position one slot at a time. -/
theorem rows_advance : ∀ (m n k cur : Nat), k + m ≤ 14 →
    drawItemsTableRows 3 0.5 (11 - 0.5 - 0.5) (n + m) (stdRowY k) cur
      = drawItemsTableRows 3 0.5 (11 - 0.5 - 0.5) n (stdRowY (k + m)) (cur + m)
  | 0, n, k, cur, _ => by simp
  | m + 1, n, k, cur, h => by
      have hk : k ≤ 13 := by omega
      have hcond : ¬((11 - 0.5 - 0.5 : ℚ) < stdRowY k + 0.5) := by
        unfold stdRowY
        have hk' : (k : ℚ) ≤ 13 := by exact_mod_cast hk
        nlinarith
      have hy : stdRowY k + 0.5 + 0.02 = stdRowY (k + 1) := by
        unfold stdRowY
        push_cast
        ring
      rw [show n + (m + 1) = (n + m) + 1 from by omega]
      simp only [drawItemsTableRows]
      rw [if_neg hcond, hy, rows_advance m n (k + 1) (cur + 1) (by omega)]
      rw [show k + 1 + m = k + (m + 1) from by omega,
          show cur + 1 + m = cur + (m + 1) from by omega]

/-- Every item gets exactly one drawn row: the per-page row counts sum
to the item count, for any layout parameters. -/
theorem rows_sum (nAddr : Nat) (rh my : ℚ) :
    ∀ (n : Nat) (y : ℚ) (cur : Nat),
      (drawItemsTableRows nAddr rh my n y cur).sum = cur + n := by
  intro n
  induction n with
  | zero => intro y cur; simp [drawItemsTableRows]
  | succ n ih =>
      intro y cur
      simp only [drawItemsTableRows]
      by_cases hcond : my < y + rh
      · rw [if_pos hcond]
        simp only [List.sum_cons, ih]
        omega
      · rw [if_neg hcond, ih]
        omega

/-- Page count of the standard full-width table: starting `k ≤ 14` row
slots into the current page, `n` more rows occupy
`(n + k - 1) / 14 + 1` pages in total. -/
theorem rows_len : ∀ (n k cur : Nat), k ≤ 14 →
    (drawItemsTableRows 3 0.5 (11 - 0.5 - 0.5) n (stdRowY k) cur).length
      = (n + k - 1) / 14 + 1
  | 0, k, cur, hk => by
      have h0 : (k - 1) / 14 = 0 := Nat.div_eq_of_lt (by omega)
      simp [drawItemsTableRows, h0]
  | n + 1, k, cur, hk => by
      by_cases hk13 : k ≤ 13
      · have hcond : ¬((11 - 0.5 - 0.5 : ℚ) < stdRowY k + 0.5) := by
          unfold stdRowY
          have hk' : (k : ℚ) ≤ 13 := by exact_mod_cast hk13
          nlinarith
        have hy : stdRowY k + 0.5 + 0.02 = stdRowY (k + 1) := by
          unfold stdRowY
          push_cast
          ring
        simp only [drawItemsTableRows]
        rw [if_neg hcond, hy, rows_len n (k + 1) (cur + 1) (by omega)]
        rw [show n + (k + 1) - 1 = n + 1 + k - 1 from by omega]
      · have hk14 : k = 14 := by omega
        subst hk14
        have hcond : (11 - 0.5 - 0.5 : ℚ) < stdRowY 14 + 0.5 := by
          unfold stdRowY
          norm_num
        have hy : drawHeaderHeight 0.5 3 + 0.2 + tableHeaderAdvance + 0.5 + 0.02
            = stdRowY 1 := by
          unfold stdRowY drawHeaderHeight tableHeaderAdvance
          norm_num [max_def]
        simp only [drawItemsTableRows]
        rw [if_pos hcond, hy]
        simp only [List.length_cons]
        rw [rows_len n 1 1 (by omega)]
        rw [show n + 1 - 1 = n from by omega,
            show n + 1 + 14 - 1 = n + 14 from by omega,
            Nat.add_div_right _ (by norm_num)]

/-- The start of the items table on a standard full page (3-line
address, no artwork): header, `0.2` gap, table column headers. -/
theorem fullPage_startY :
    drawHeaderHeight 0.5 3 + 0.2 + tableHeaderAdvance = stdRowY 0 := by
  unfold stdRowY drawHeaderHeight tableHeaderAdvance
  norm_num [max_def]

/-- C4. Before each row `drawItemsTable` checks the remaining space
against the page's content boundary (`maxY = 10` on a full page) and,
when the row does not fit, starts a new page on which the full order
header and the table column headers are re-rendered (giving the fresh
cursor `stdRowY 1` after the first continued row) — repeatable for
arbitrarily many items (the per-page row counts always sum to the item
count).  On the standard page 14 rows fit; an order exceeding one
page's content height by exactly one row (15 rows) produces exactly 2
pages, and in general `n` items occupy `(n - 1) / 14 + 1` pages. -/
theorem itemsTable_overflow_pagination :
    fullPagePlan 3 14 = [14]
    ∧ fullPagePlan 3 15 = [14, 1]
    ∧ (fullPagePlan 3 15).length = 2
    ∧ (∀ n : Nat, (fullPagePlan 3 n).sum = n)
    ∧ (∀ n : Nat, (fullPagePlan 3 n).length = (n - 1) / 14 + 1) := by
  have h14 : fullPagePlan 3 14 = [14] := by
    unfold fullPagePlan
    rw [fullPage_startY, rows_no_break 14 0 0 (by omega)]
  have h15 : fullPagePlan 3 15 = [14, 1] := by
    unfold fullPagePlan
    rw [fullPage_startY, show (15 : Nat) = 1 + 14 from rfl,
        rows_advance 14 1 0 0 (by omega)]
    rw [show (0 + 14 : Nat) = 14 from rfl, show (1 : Nat) = 0 + 1 from rfl,
        rows_break 0 (0 + 14)]
    simp [drawItemsTableRows]
  refine ⟨h14, h15, by rw [h15]; rfl, ?_, ?_⟩
  · intro n
    unfold fullPagePlan
    rw [rows_sum]
    omega
  · intro n
    unfold fullPagePlan
    rw [fullPage_startY, rows_len n 0 0 (by omega)]
    rw [show n + 0 - 1 = n - 1 from by omega]

/-- C5 counterexample: when the dual-purpose field is a URL but the
dedicated description field (`formulatext_1`) is also populated, the
description is NOT empty — it is the dedicated field's text. -/
theorem processItem_image_description_cx :
    isUrl (jsOrStr c5CxItem.formulatext "") = true
    ∧ (processItem c5CxItem).imageUrl = some "https://img.example/x.png"
    ∧ (processItem c5CxItem).description = "Blue mug, glossy"
    ∧ (processItem c5CxItem).description ≠ "" := by decide

/-- The 3-step fallback chain `a || b || c` returns the first populated
field, and is falsy when none is populated. -/
theorem jsOrOpt3_find (a b c : Option String) :
    (∀ u : Option String, [a, b, c].find? jsTruthy = some u → jsOrOpt a (jsOrOpt b c) = u)
    ∧ ([a, b, c].find? jsTruthy = none → jsTruthy (jsOrOpt a (jsOrOpt b c)) = false) := by
  constructor
  · intro u hu
    cases ha : jsTruthy a <;> cases hb : jsTruthy b <;> cases hc : jsTruthy c <;>
      simp_all [List.find?, jsOrOpt]
  · intro h
    cases ha : jsTruthy a <;> cases hb : jsTruthy b <;> cases hc : jsTruthy c <;>
      simp_all [List.find?, jsOrOpt]

/-- C5 (amended). If the dedicated description field `formulatext_1`
is populated it becomes the description regardless of the dual-purpose
field; otherwise the claim holds as stated: a URL-shaped dual-purpose
field becomes the image reference verbatim with an empty description,
any other text becomes the description, and the image reference falls
back through the three alternate fields in order (first populated
wins, falsy when none is). -/
theorem processItem_image_description_amended (ns : NetSuiteItem) :
    (isUrl (jsOrStr ns.formulatext "") = true →
        (processItem ns).imageUrl = some (jsOrStr ns.formulatext ""))
    ∧ (isUrl (jsOrStr ns.formulatext "") = false →
        (∀ u : Option String,
            [ns.custcol_custom_image_url, ns.custcol1, ns.custcol1_1].find? jsTruthy = some u →
            (processItem ns).imageUrl = u)
        ∧ ([ns.custcol_custom_image_url, ns.custcol1, ns.custcol1_1].find? jsTruthy = none →
            jsTruthy (processItem ns).imageUrl = false))
    ∧ (processItem ns).description
        = jsOrStr ns.formulatext_1
            (if isUrl (jsOrStr ns.formulatext "") then "" else jsOrStr ns.formulatext "")
    ∧ (jsTruthy ns.formulatext_1 = false →
        (isUrl (jsOrStr ns.formulatext "") = true → (processItem ns).description = "")
        ∧ (isUrl (jsOrStr ns.formulatext "") = false →
            (processItem ns).description = jsOrStr ns.formulatext "")) := by
  refine ⟨?_, ?_, ?_, ?_⟩
  · intro h
    simp [processItem, h]
  · intro h
    constructor
    · intro u hu
      have := (jsOrOpt3_find ns.custcol_custom_image_url ns.custcol1 ns.custcol1_1).1 u hu
      simp [processItem, h, this]
    · intro hn
      have := (jsOrOpt3_find ns.custcol_custom_image_url ns.custcol1 ns.custcol1_1).2 hn
      simp [processItem, h, this]
  · by_cases h : isUrl (jsOrStr ns.formulatext "") <;> simp [processItem, h]
  · intro hft
    have hdesc : ∀ b : String, jsOrStr ns.formulatext_1 b = b := by
      intro b
      cases hft1 : ns.formulatext_1 with
      | none => rfl
      | some s =>
          simp [jsTruthy, hft1] at hft
          simp [jsOrStr, hft]
    constructor
    · intro h
      simp [processItem, h, hdesc]
    · intro h
      simp [processItem, h, hdesc]

/-- Witness for C5 (amended) at a concrete free-text record:
the text becomes the description and the image reference is falsy. -/
theorem processItem_image_description_witness :
    (processItem c5WItem).description = "Blue mug, glossy"
    ∧ jsTruthy (processItem c5WItem).imageUrl = false := by
  have h := processItem_image_description_amended c5WItem
  constructor
  · rw [h.2.2.1]
    decide
  · exact (h.2.1 (by decide)).2 (by decide)

/-- C7 counterexample: the quantity text `"-3"` parses to `-3`, which
is truthy, so the normalized quantity is `-3` — not an integer ≥ 1. -/
theorem processItem_quantity_cx :
    (processItem c7CxItem).quantity = -3
    ∧ ¬(1 ≤ (processItem c7CxItem).quantity) := by decide

/-- C7 (amended). The normalized quantity is `parseInt(quantity) || 1`:
the parsed integer when it parses to a nonzero value (negative values
included), and `1` when the parse fails or yields `0`; consequently it
is never `0`, but it is ≥ 1 only when the parse is not negative. -/
theorem processItem_quantity_amended (ns : NetSuiteItem) (s : String) :
    (processItem ns).quantity = jsParseIntOr1 ns.quantity
    ∧ (processItem ns).quantity ≠ 0
    ∧ (jsParseInt s = none → jsParseIntOr1 s = 1)
    ∧ (jsParseInt s = some 0 → jsParseIntOr1 s = 1)
    ∧ (∀ v : Int, jsParseInt s = some v → v ≠ 0 → jsParseIntOr1 s = v) := by
  have hq : (processItem ns).quantity = jsParseIntOr1 ns.quantity := by
    simp [processItem]
  refine ⟨hq, ?_, ?_, ?_, ?_⟩
  · rw [hq]
    unfold jsParseIntOr1
    cases jsParseInt ns.quantity with
    | none => simp
    | some v => by_cases hv : v = 0 <;> simp [hv]
  · intro h
    simp [jsParseIntOr1, h]
  · intro h
    simp [jsParseIntOr1, h]
  · intro v hv hv0
    simp [jsParseIntOr1, hv, hv0]

/-- Witness for C7 (amended): a never-zero quantity, the `"0"` default
and a plain positive parse. -/
theorem processItem_quantity_witness :
    (processItem baseNS).quantity ≠ 0
    ∧ jsParseIntOr1 "0" = 1
    ∧ jsParseIntOr1 "7" = 7 :=
  ⟨(processItem_quantity_amended baseNS "0").2.1,
   (processItem_quantity_amended baseNS "0").2.2.2.1 (by decide),
   (processItem_quantity_amended baseNS "7").2.2.2.2 7 (by decide) (by decide)⟩

/-- Updating the record at `key` changes the lookup at `key` by exactly
the update function. -/
theorem lookupKey_updateFirst_self :
    ∀ (acc : List (String × PicklistItem)) (key : String) (f : PicklistItem → PicklistItem),
      lookupKey (updateFirst acc key f) key = (lookupKey acc key).map f
  | [], _, _ => rfl
  | kv :: rest, key, f => by
      by_cases h : kv.1 = key
      · have hbeq : (kv.1 == key) = true := by simp [h]
        simp [updateFirst, lookupKey, List.find?, hbeq]
      · have hbeq : (kv.1 == key) = false := by simp [h]
        simp only [updateFirst, hbeq, Bool.false_eq_true, if_false]
        simp only [lookupKey, List.find?, hbeq]
        exact lookupKey_updateFirst_self rest key f

/-- Updating the record at `key` leaves every other lookup unchanged. -/
theorem lookupKey_updateFirst_other :
    ∀ (acc : List (String × PicklistItem)) (key : String) (f : PicklistItem → PicklistItem)
      (k : String), k ≠ key →
      lookupKey (updateFirst acc key f) k = lookupKey acc k
  | [], _, _, _, _ => rfl
  | kv :: rest, key, f, k, hk => by
      by_cases h : kv.1 = key
      · have hbeq : (kv.1 == key) = true := by simp [h]
        have hbk : (kv.1 == k) = false := by
          simp [h]
          exact fun hc => hk hc.symm
        simp [updateFirst, lookupKey, List.find?, hbeq, hbk]
      · have hbeq : (kv.1 == key) = false := by simp [h]
        by_cases h2 : kv.1 = k
        · have hbk : (kv.1 == k) = true := by simp [h2]
          simp [updateFirst, lookupKey, List.find?, hbeq, hbk]
        · have hbk : (kv.1 == k) = false := by simp [h2]
          simp only [updateFirst, hbeq, Bool.false_eq_true, if_false]
          simp only [lookupKey, List.find?, hbk]
          exact lookupKey_updateFirst_other rest key f k hk

/-- Updating in place preserves the key sequence. -/
theorem keysOf_updateFirst :
    ∀ (acc : List (String × PicklistItem)) (key : String) (f : PicklistItem → PicklistItem),
      keysOf (updateFirst acc key f) = keysOf acc
  | [], _, _ => rfl
  | kv :: rest, key, f => by
      by_cases h : kv.1 = key
      · have hbeq : (kv.1 == key) = true := by simp [h]
        simp [updateFirst, keysOf, hbeq]
      · have hbeq : (kv.1 == key) = false := by simp [h]
        simp only [updateFirst, hbeq, Bool.false_eq_true, if_false]
        simp only [keysOf, List.map_cons, List.cons.injEq, true_and]
        exact keysOf_updateFirst rest key f

/-- One aggregation step adds the processed item's quantity to exactly
its own composite key's total. -/
theorem accTotal_step (acc : List (String × PicklistItem)) (p : String × OrderItem)
    (k : String) :
    accTotal (picklistStep acc p) k
      = accTotal acc k + (if picklistKey p.2 = k then p.2.quantity else 0) := by
  unfold picklistStep
  rcases hfind : acc.find? (fun kv => kv.1 == picklistKey p.2) with _ | kv
  · simp only [hfind, Option.isSome_none, Bool.false_eq_true, if_false]
    by_cases hk : picklistKey p.2 = k
    · subst hk
      have hnone : lookupKey acc (picklistKey p.2) = none := by
        unfold lookupKey
        rw [hfind]
        rfl
      unfold accTotal lookupKey
      rw [List.find?_append, hfind]
      unfold lookupKey at hnone
      rw [hfind] at hnone
      simp [List.find?, applyItem, freshPicklistItem, accTotal, hnone]
    · have hbk : (picklistKey p.2 == k) = false := by simp [hk]
      unfold accTotal lookupKey
      rw [List.find?_append]
      have hsing : List.find? (fun kv => kv.1 == k)
          [(picklistKey p.2, applyItem p.1 p.2 (freshPicklistItem p.2))] = none := by
        simp [List.find?, hbk]
      rw [hsing]
      simp [hk]
  · have hkey : kv.1 = picklistKey p.2 := by
      have := List.find?_some hfind
      simpa using this
    simp only [hfind, Option.isSome_some, if_true]
    by_cases hk : picklistKey p.2 = k
    · subst hk
      have hlk : lookupKey acc (picklistKey p.2) = some kv.2 := by
        unfold lookupKey
        rw [hfind]
        rfl
      unfold accTotal
      rw [lookupKey_updateFirst_self, hlk]
      simp [applyItem]
    · unfold accTotal
      rw [lookupKey_updateFirst_other acc _ _ k (fun hc => hk hc.symm)]
      simp only [hk, if_false]
      cases lookupKey acc k <;> simp

/-- One aggregation step adds exactly the processed item's composite
key to the key set. -/
theorem keysOf_step_mem (acc : List (String × PicklistItem)) (p : String × OrderItem)
    (k : String) :
    k ∈ keysOf (picklistStep acc p) ↔ k ∈ keysOf acc ∨ k = picklistKey p.2 := by
  unfold picklistStep
  rcases hfind : acc.find? (fun kv => kv.1 == picklistKey p.2) with _ | kv
  · simp only [hfind, Option.isSome_none, Bool.false_eq_true, if_false]
    unfold keysOf
    simp [List.mem_append, eq_comm]
  · have hkey : kv.1 = picklistKey p.2 := by
      have := List.find?_some hfind
      simpa using this
    have hmem : picklistKey p.2 ∈ keysOf acc := by
      have h1 : kv ∈ acc := List.mem_of_find?_eq_some hfind
      have h2 : kv.1 ∈ keysOf acc := List.mem_map_of_mem Prod.fst h1
      rwa [hkey] at h2
    simp only [hfind, Option.isSome_some, if_true]
    rw [keysOf_updateFirst]
    constructor
    · exact Or.inl
    · rintro (h | rfl)
      · exact h
      · exact hmem

/-- One aggregation step keeps the keys duplicate-free. -/
theorem keysOf_step_nodup (acc : List (String × PicklistItem)) (p : String × OrderItem)
    (h : (keysOf acc).Nodup) : (keysOf (picklistStep acc p)).Nodup := by
  unfold picklistStep
  rcases hfind : acc.find? (fun kv => kv.1 == picklistKey p.2) with _ | kv
  · simp only [hfind, Option.isSome_none, Bool.false_eq_true, if_false]
    have hno : picklistKey p.2 ∉ keysOf acc := by
      rw [List.find?_eq_none] at hfind
      intro hc
      rcases List.mem_map.mp hc with ⟨x, hx, hx1⟩
      exact hfind x hx (by simp [hx1])
    unfold keysOf at *
    rw [List.map_append]
    simp [List.nodup_append, h, hno]
  · simp only [hfind, Option.isSome_some, if_true]
    rw [keysOf_updateFirst]
    exact h

/-- Adding a quantity to a per-order breakdown adds it to the
breakdown's sum. -/
theorem ordersSum_addOrderQty :
    ∀ (l : List PicklistOrderEntry) (onum : String) (q : Int),
      ordersSum (addOrderQty l onum q) = ordersSum l + q
  | [], _, _ => by simp [addOrderQty, ordersSum]
  | e :: rest, onum, q => by
      by_cases h : e.orderNumber = onum
      · have hbeq : (e.orderNumber == onum) = true := by simp [h]
        simp [addOrderQty, ordersSum, hbeq]
        ring
      · have hbeq : (e.orderNumber == onum) = false := by simp [h]
        simp [addOrderQty, ordersSum, hbeq, ordersSum_addOrderQty rest onum q]
        ring

/-- Members of an in-place update are either untouched members or the
update function applied to a member. -/
theorem mem_updateFirst :
    ∀ (acc : List (String × PicklistItem)) (key : String) (f : PicklistItem → PicklistItem)
      (kv : String × PicklistItem), kv ∈ updateFirst acc key f →
      kv ∈ acc ∨ ∃ w, (kv.1, w) ∈ acc ∧ kv.2 = f w
  | [], _, _, kv, h => by simp [updateFirst] at h
  | x :: rest, key, f, kv, h => by
      by_cases hx : x.1 = key
      · have hbeq : (x.1 == key) = true := by simp [hx]
        simp only [updateFirst, hbeq, if_true, List.mem_cons] at h
        rcases h with h | h
        · right
          refine ⟨x.2, ?_, ?_⟩
          · rw [h]
            simp
          · rw [h]
        · left
          exact List.mem_cons_of_mem _ h
      · have hbeq : (x.1 == key) = false := by simp [hx]
        simp only [updateFirst, hbeq, Bool.false_eq_true, if_false, List.mem_cons] at h
        rcases h with h | h
        · left
          simp [h]
        · rcases mem_updateFirst rest key f kv h with h' | ⟨w, hw, hfw⟩
          · left
            exact List.mem_cons_of_mem _ h'
          · right
            exact ⟨w, List.mem_cons_of_mem _ hw, hfw⟩

/-- One aggregation step preserves the breakdown-sums-to-total
invariant. -/
theorem breakdown_step (acc : List (String × PicklistItem)) (p : String × OrderItem)
    (h : ∀ kv ∈ acc, ordersSum kv.2.orders = kv.2.totalQuantity) :
    ∀ kv ∈ picklistStep acc p, ordersSum kv.2.orders = kv.2.totalQuantity := by
  intro kv hkv
  unfold picklistStep at hkv
  rcases hfind : acc.find? (fun kv => kv.1 == picklistKey p.2) with _ | w
  · rw [hfind] at hkv
    simp only [Option.isSome_none, Bool.false_eq_true, if_false] at hkv
    rcases List.mem_append.mp hkv with h1 | h1
    · exact h kv h1
    · simp only [List.mem_singleton] at h1
      rw [h1]
      simp [applyItem, freshPicklistItem, addOrderQty, ordersSum]
  · rw [hfind] at hkv
    simp only [Option.isSome_some, if_true] at hkv
    rcases mem_updateFirst acc _ _ kv hkv with h1 | ⟨w', hw', hfw⟩
    · exact h kv h1
    · rw [hfw]
      simp [applyItem, ordersSum_addOrderQty]
      exact h (kv.1, w') hw'

/-- Folding the aggregation over processed items adds each key's
matching quantities to its total. -/
theorem accTotal_foldl :
    ∀ (l : List (String × OrderItem)) (acc : List (String × PicklistItem)) (k : String),
      accTotal (l.foldl picklistStep acc) k = accTotal acc k + sumQtyAt l k
  | [], acc, k => by simp [sumQtyAt]
  | p :: rest, acc, k => by
      simp only [List.foldl_cons, sumQtyAt]
      rw [accTotal_foldl rest (picklistStep acc p) k, accTotal_step]
      ring

/-- A key is in the aggregation iff some processed item has it. -/
theorem keys_foldl_mem :
    ∀ (l : List (String × OrderItem)) (acc : List (String × PicklistItem)) (k : String),
      k ∈ keysOf (l.foldl picklistStep acc)
        ↔ k ∈ keysOf acc ∨ k ∈ l.map (fun p => picklistKey p.2)
  | [], acc, k => by simp
  | p :: rest, acc, k => by
      simp only [List.foldl_cons, List.map_cons, List.mem_cons]
      rw [keys_foldl_mem rest (picklistStep acc p) k]
      constructor
      · rintro (h | h)
        · rcases (keysOf_step_mem acc p k).mp h with h' | h'
          · exact Or.inl h'
          · exact Or.inr (Or.inl h')
        · exact Or.inr (Or.inr h)
      · rintro (h | h | h)
        · exact Or.inl ((keysOf_step_mem acc p k).mpr (Or.inl h))
        · exact Or.inl ((keysOf_step_mem acc p k).mpr (Or.inr h))
        · exact Or.inr h

/-- The aggregation keys stay duplicate-free. -/
theorem keys_foldl_nodup :
    ∀ (l : List (String × OrderItem)) (acc : List (String × PicklistItem)),
      (keysOf acc).Nodup → (keysOf (l.foldl picklistStep acc)).Nodup
  | [], _, h => h
  | p :: rest, acc, h => keys_foldl_nodup rest _ (keysOf_step_nodup acc p h)

/-- Every aggregated record's breakdown sums to its total. -/
theorem breakdown_foldl :
    ∀ (l : List (String × OrderItem)) (acc : List (String × PicklistItem)),
      (∀ kv ∈ acc, ordersSum kv.2.orders = kv.2.totalQuantity) →
      ∀ kv ∈ l.foldl picklistStep acc, ordersSum kv.2.orders = kv.2.totalQuantity
  | [], _, h => h
  | p :: rest, acc, h => breakdown_foldl rest _ (breakdown_step acc p h)

/-- C6 counterexample: two distinct (pick-location, SKU) pairs —
(`"A|B"`, `"C"`) and (`"A"`, `"B|C"`) — share the composite key
`"A|B|C"`, so the aggregation builds ONE record for TWO distinct
pairs; the claim's "exactly one aggregate record per distinct
(pick-location, SKU) pair" fails at this input. -/
theorem picklistAggregate_pair_cx :
    (picklistAggregate [c6CxO1, c6CxO2]).length = 1
    ∧ ((orderItemPairs [c6CxO1, c6CxO2]).map
        (fun p => (jsOrStr p.2.pickLocation "-", p.2.sku))).dedup.length = 2 := by
  decide

/-- C6 (amended). The aggregation builds exactly one record per
distinct composite key `location + '|' + SKU` (which coincides with
one record per (pick-location, SKU) pair whenever locations contain no
`'|'`): the key sequence is duplicate-free and covers exactly the keys
of the selected orders' items, each record's `totalQuantity` is the
sum of the matching item quantities, and the retained per-order
breakdown sums to that total. -/
theorem picklistAggregate_amended (orders : List ProcessedOrder) :
    (keysOf (picklistAggregate orders)).Nodup
    ∧ (∀ k : String, k ∈ keysOf (picklistAggregate orders)
        ↔ k ∈ (orderItemPairs orders).map (fun p => picklistKey p.2))
    ∧ (∀ (k : String) (v : PicklistItem), lookupKey (picklistAggregate orders) k = some v →
        v.totalQuantity = sumQtyAt (orderItemPairs orders) k)
    ∧ (∀ kv ∈ picklistAggregate orders, ordersSum kv.2.orders = kv.2.totalQuantity) := by
  refine ⟨?_, ?_, ?_, ?_⟩
  · exact keys_foldl_nodup _ [] (by simp [keysOf])
  · intro k
    unfold picklistAggregate
    rw [keys_foldl_mem]
    simp [keysOf]
  · intro k v hv
    have htot := accTotal_foldl (orderItemPairs orders) [] k
    unfold picklistAggregate at hv
    have h0 : accTotal [] k = 0 := rfl
    rw [h0] at htot
    unfold accTotal at htot
    rw [hv] at htot
    simpa using htot
  · exact breakdown_foldl _ [] (by simp)

/-- Witness for C6 (amended) at the concrete CUP-PERS example: one
record, location A1, sku CUP-PERS, totalQuantity 5, two-entry
breakdown. -/
theorem picklistAggregate_amended_witness :
    (keysOf (picklistAggregate [c6ExO1, c6ExO2])).Nodup
    ∧ (picklistAggregate [c6ExO1, c6ExO2]).map Prod.snd
        = [⟨"CUP-PERS", "", none, "A1", 5, [⟨"O1", 2⟩, ⟨"O2", 3⟩]⟩]
    ∧ sumQtyAt (orderItemPairs [c6ExO1, c6ExO2]) "A1|CUP-PERS" = 5 :=
  ⟨(picklistAggregate_amended [c6ExO1, c6ExO2]).1, by decide,
   ((picklistAggregate_amended [c6ExO1, c6ExO2]).2.2.1 "A1|CUP-PERS"
      ⟨"CUP-PERS", "", none, "A1", 5, [⟨"O1", 2⟩, ⟨"O2", 3⟩]⟩ (by decide)).symm⟩

/-- For every distance, the band scan finds a zone: the last band's
limit is `Infinity`. -/
theorem zones_scan_isSome (d : ℚ) :
    (SHIPPING_ZONES.find? (fun z => leMax d z.maxDistance)).isSome = true := by
  by_cases h1 : d ≤ 50
  · simp [SHIPPING_ZONES, List.find?, leMax, h1]
  · by_cases h2 : d ≤ 499
    · simp [SHIPPING_ZONES, List.find?, leMax, h1, h2]
    · by_cases h3 : d ≤ 1000 <;> simp [SHIPPING_ZONES, List.find?, leMax, h1, h2, h3]

/-- When a distance is computed, `assignShippingZone` returns whatever
the band scan returns (when it finds a band). -/
theorem assignShippingZone_eq_of_dist (dist : ℚ × ℚ → ℚ) (address : String) (d : ℚ)
    (hd : calculateDistanceFromAsheville dist address = some d) (z : ShippingZone)
    (hz : SHIPPING_ZONES.find? (fun z => leMax d z.maxDistance) = some z) :
    assignShippingZone dist address = ⟨z.id, some d, z.zoneName⟩ := by
  unfold assignShippingZone
  rw [hd]
  show (match SHIPPING_ZONES.find? (fun z => leMax d z.maxDistance) with
        | some z => ZoneAssignment.mk z.id (some d) z.zoneName
        | none => ZoneAssignment.mk "distant" (some d) "Distant (1000+ mi)") = _
  rw [hz]

/-- When no distance is computable, `assignShippingZone` returns the
`national` default with a null distance. -/
theorem assignShippingZone_eq_of_none (dist : ℚ × ℚ → ℚ) (address : String)
    (h : calculateDistanceFromAsheville dist address = none) :
    assignShippingZone dist address
      = ⟨"national", none, "National (500-1000 mi)"⟩ := by
  unfold assignShippingZone
  rw [h]
  decide

/-- C8. An address with no parsable zip code is assigned the third
band (`'national'`) with a null distance; every address whose distance
is computed is assigned the first of the 4 ordered bands whose limit
the distance does not exceed, together with that band's name and the
numeric distance — for every possible value of the (floating-point)
haversine distance function. -/
theorem assignShippingZone_bands (dist : ℚ × ℚ → ℚ) (address : String) :
    (parseShippingAddress address = none →
        assignShippingZone dist address
          = ⟨"national", none, "National (500-1000 mi)"⟩)
    ∧ (∀ d : ℚ, calculateDistanceFromAsheville dist address = some d →
        ∃ z : ShippingZone,
          SHIPPING_ZONES.find? (fun z => leMax d z.maxDistance) = some z
          ∧ assignShippingZone dist address = ⟨z.id, some d, z.zoneName⟩) := by
  constructor
  · intro h
    have hc : calculateDistanceFromAsheville dist address = none := by
      unfold calculateDistanceFromAsheville
      rw [h]
    exact assignShippingZone_eq_of_none dist address hc
  · intro d hd
    rcases hz : SHIPPING_ZONES.find? (fun z => leMax d z.maxDistance) with _ | z
    · exfalso
      have := zones_scan_isSome d
      rw [hz] at this
      simp at this
    · exact ⟨z, hz, assignShippingZone_eq_of_dist dist address d hd z hz⟩

/-- Witness for C8: the empty address defaults to `national`/null, and
a concrete Asheville address with computed distance 30 lands in the
first band. -/
theorem assignShippingZone_bands_witness :
    assignShippingZone (fun _ => 0) "" = ⟨"national", none, "National (500-1000 mi)"⟩
    ∧ assignShippingZone (fun _ => 30) waddr = ⟨"local", some 30, "Local (0-50 mi)"⟩ := by
  constructor
  · exact (assignShippingZone_bands (fun _ => 0) "").1 (by decide)
  · obtain ⟨z, hz, ha⟩ := (assignShippingZone_bands (fun _ => 30) waddr).2 30 (by decide)
    have hz' : SHIPPING_ZONES.find? (fun z => leMax 30 z.maxDistance)
        = some ⟨"local", "Local (0-50 mi)", some 50, 4⟩ := by decide
    have hzz : z = ⟨"local", "Local (0-50 mi)", some 50, 4⟩ :=
      Option.some.inj (hz.symm.trans hz')
    rw [hzz] at ha
    exact ha

/-- C9. All three document-generation entry points fail fast with
`'No orders provided'` on an empty selection and produce output
exactly when the selection is non-empty. -/
theorem generators_fail_on_empty :
    generatePackingSlipsPDFRun [] = Except.error "No orders provided"
    ∧ generatePicklistPDFRun [] = Except.error "No orders provided"
    ∧ generateCombinedPDFRun [] = Except.error "No orders provided"
    ∧ (∀ orders : List ProcessedOrder,
        isOkE (generatePackingSlipsPDFRun orders) = !orders.isEmpty
        ∧ isOkE (generatePicklistPDFRun orders) = !orders.isEmpty
        ∧ isOkE (generateCombinedPDFRun orders) = !orders.isEmpty) := by
  refine ⟨rfl, rfl, rfl, ?_⟩
  intro orders
  cases orders <;>
    simp [generatePackingSlipsPDFRun, generatePicklistPDFRun, generateCombinedPDFRun,
      isOkE]

/-- C10. The distance-strategy assigner is total over the four
declared zone ids, and the post-loop "should never reach here"
fallback is unreachable: for every computed distance the band scan
finds a zone, because the last band's `maxDistance` is `Infinity`. -/
theorem assignShippingZone_total (dist : ℚ × ℚ → ℚ) (address : String) :
    ((assignShippingZone dist address).zone = "local"
      ∨ (assignShippingZone dist address).zone = "regional"
      ∨ (assignShippingZone dist address).zone = "national"
      ∨ (assignShippingZone dist address).zone = "distant")
    ∧ (∀ d : ℚ, calculateDistanceFromAsheville dist address = some d →
        SHIPPING_ZONES.find? (fun z => leMax d z.maxDistance) ≠ none) := by
  constructor
  · rcases hcalc : calculateDistanceFromAsheville dist address with _ | d
    · rw [assignShippingZone_eq_of_none dist address hcalc]
      right; right; left
      rfl
    · rcases hz : SHIPPING_ZONES.find? (fun z => leMax d z.maxDistance) with _ | z
      · exfalso
        have := zones_scan_isSome d
        rw [hz] at this
        simp at this
      · rw [assignShippingZone_eq_of_dist dist address d hcalc z hz]
        have hmem := List.mem_of_find?_eq_some hz
        simp only [SHIPPING_ZONES, List.mem_cons, List.not_mem_nil, or_false] at hmem
        rcases hmem with rfl | rfl | rfl | rfl
        · left; rfl
        · right; left; rfl
        · right; right; left; rfl
        · right; right; right; rfl
  · intro d _ hnone
    have := zones_scan_isSome d
    rw [hnone] at this
    simp at this

/-- Witness for C10: totality at the empty address, and a found band
at distance 30. -/
theorem assignShippingZone_total_witness :
    ((assignShippingZone (fun _ => 0) "").zone = "local"
      ∨ (assignShippingZone (fun _ => 0) "").zone = "regional"
      ∨ (assignShippingZone (fun _ => 0) "").zone = "national"
      ∨ (assignShippingZone (fun _ => 0) "").zone = "distant")
    ∧ SHIPPING_ZONES.find? (fun z => leMax 30 z.maxDistance) ≠ none :=
  ⟨(assignShippingZone_total (fun _ => 0) "").1,
   (assignShippingZone_total (fun _ => 30) waddr).2 30 (by decide)⟩
